import Mathlib

/-!
Verification development for the `cli-translator` repository
(`src/translator.py`).

The Python source consists almost entirely of documented stubs: every
function body is `pass`.  The only executable logic in the file is the
exception-class hierarchy (lines 803-820) and the `__main__` entry-point
handler (lines 851-867).  Those parts are embedded directly from the
source below.  Behaviour whose implementation is absent from the source
(chunking, history, the translation pipeline, validation) is modelled
from the specification, with each such definition's doc comment starting
with `Modelled from the spec:`.

Python strings are modelled as `String` (whose `data` field is a
`List Char`); Python `None` returns are modelled with `Option`; the
observable world (files, terminal output) is modelled explicitly as a
`World` value threaded through the stubbed routines so that "performs no
observable effect" is expressible.
-/

/-- Observable effects available to the CLI program: the local files it
could write and the lines it could print.  A routine with body `pass`
leaves this state untouched. -/
structure World where
  files : List (String × String)
  stdout : List String
deriving DecidableEq

/-- Configuration dictionary shape documented in `load_config`
(lines 24-52 of `src/translator.py`). -/
structure Config where
  api_key : String
  default_source : String
  default_target : String
  api_provider : String
  history_enabled : Bool
  max_history : Nat
deriving DecidableEq

/-- Translation result shape (spec section 3; docstring of
`translate_text`, lines 135-171).  Field names follow the spec's
`TranslationResult` entity; `confidence` is `none` when absent. -/
structure TranslationResult where
  translated_text : String
  resolved_source : String
  target : String
  confidence : Option Rat
  provider : String
  timestamp : String
deriving DecidableEq

/-- History record shape documented in `save_to_history`
(lines 421-447 of `src/translator.py`). -/
structure HistoryRecord where
  source_text : String
  translated_text : String
  source_lang : String
  target_lang : String
  timestamp : String
deriving DecidableEq

/-- Summary returned by file translation (docstring of `translate_file`,
lines 325-360, plus the spec's requirement that the count of completed
chunks is surfaced on failure).  Wall-clock `time_taken` is not
modelled. -/
structure FileSummary where
  total_chars : Nat
  total_lines : Nat
  success : Bool
  chunks_completed : Nat
deriving DecidableEq

/-- The exception classes defined at lines 803-820 of
`src/translator.py`, together with the built-in `Exception` root they
derive from. -/
inductive ExcKind where
  | pyException
  | translationError
  | apiError
  | rateLimitError
  | authenticationError
deriving DecidableEq

/-- Direct base class of each exception class, exactly as declared in
the source: `TranslationError(Exception)`, `APIError(TranslationError)`,
`RateLimitError(TranslationError)`,
`AuthenticationError(TranslationError)`. -/
def directBase : ExcKind → Option ExcKind
  | .pyException => none
  | .translationError => some .pyException
  | .apiError => some .translationError
  | .rateLimitError => some .translationError
  | .authenticationError => some .translationError

/-- Chain of classes reachable from `c` through `directBase`, including
`c` itself; the fuel bound `5` covers every chain in the hierarchy. -/
def ancestorsAux : Nat → Option ExcKind → List ExcKind
  | 0, _ => []
  | _ + 1, none => []
  | n + 1, some c => c :: ancestorsAux n (directBase c)

/-- Ancestor list of an exception class (the class and its bases). -/
def ancestors (c : ExcKind) : List ExcKind :=
  ancestorsAux 5 (some c)

/-- Python `issubclass(c, d)` over the embedded hierarchy. -/
def isSubclassOf (c d : ExcKind) : Bool :=
  (ancestors c).any (fun x => decide (x = d))

/-- Whether an `except handler:` clause catches a raised exception of
class `thrown`: Python catches iff `thrown` is a subclass of the
handler's class. -/
def catches (handler thrown : ExcKind) : Bool :=
  isSubclassOf thrown handler

/-- Possible ways a call to `main()` can end, for the purpose of the
`__main__` handler at lines 851-867: normal return, a propagating
`KeyboardInterrupt`, or a propagating exception of one of the modelled
`Exception` classes. -/
inductive MainOutcome where
  | normal
  | keyboardInterrupt
  | raised (e : ExcKind)

/-- What the `__main__` block does before the process ends. -/
structure EntryResult where
  exit_code : Nat
  handle_error_called : Bool
  cancelled_message_printed : Bool
deriving DecidableEq

/-- Embedding of the `__main__` block (lines 851-867 of
`src/translator.py`): `try: main()` with
`except KeyboardInterrupt: print(...); sys.exit(0)` and
`except Exception as e: handle_error(e, "main"); sys.exit(1)`.
A normal return falls off the end of the script, which exits with
code 0 and calls neither handler. -/
def script_entry : MainOutcome → EntryResult
  | .normal => ⟨0, false, false⟩
  | .keyboardInterrupt => ⟨0, false, true⟩
  | .raised _ => ⟨1, true, false⟩

namespace Src

/-- Embedding of `load_config` (lines 24-52): the body is `pass`, so the
call returns `None` and leaves the world unchanged. -/
def load_config (w : World) : Option Config × World := (none, w)

/-- Embedding of `save_config` (lines 55-77): body `pass`. -/
def save_config (w : World) (config : Config) : Option Bool × World := (none, w)

/-- Embedding of `get_api_key` (lines 80-100): body `pass`. -/
def get_api_key (w : World) (api_provider : String) : Option String × World := (none, w)

/-- Embedding of `setup_first_run` (lines 103-128): body `pass`. -/
def setup_first_run (w : World) : Option Config × World := (none, w)

/-- Embedding of `translate_text` (lines 135-171): body `pass`. -/
def translate_text (w : World) (text source_lang target_lang api_provider : String) :
    Option TranslationResult × World := (none, w)

/-- Embedding of `call_translation_api` (lines 174-207): body `pass`. -/
def call_translation_api (w : World) (text source_lang target_lang api_provider api_key : String) :
    Option (List (String × String)) × World := (none, w)

/-- Embedding of `parse_api_response` (lines 210-235): body `pass`. -/
def parse_api_response (w : World) (response : List (String × String)) (api_provider : String) :
    Option String × World := (none, w)

/-- Embedding of `detect_language` (lines 242-268): body `pass`. -/
def detect_language (w : World) (text api_provider : String) :
    Option (String × Rat) × World := (none, w)

/-- Embedding of `validate_language_code` (lines 271-291): body `pass`. -/
def validate_language_code (w : World) (lang_code : String) : Option Bool × World := (none, w)

/-- Embedding of `get_supported_languages` (lines 294-318): body `pass`. -/
def get_supported_languages (w : World) (api_provider : String) :
    Option (List (String × String × String)) × World := (none, w)

/-- Embedding of `translate_file` (lines 325-360): body `pass`. -/
def translate_file (w : World) (input_file output_file source_lang target_lang api_provider : String) :
    Option FileSummary × World := (none, w)

/-- Embedding of `read_file_content` (lines 363-387): body `pass`. -/
def read_file_content (w : World) (file_path encoding : String) : Option String × World := (none, w)

/-- Embedding of `write_file_content` (lines 390-414): body `pass`. -/
def write_file_content (w : World) (file_path content encoding : String) :
    Option Bool × World := (none, w)

/-- Embedding of `save_to_history` (lines 421-447): body `pass`. -/
def save_to_history (w : World) (translation_record : HistoryRecord) :
    Option Bool × World := (none, w)

/-- Embedding of `get_history` (lines 450-472): body `pass`. -/
def get_history (w : World) (limit : Nat) (filter_lang : Option String) :
    Option (List HistoryRecord) × World := (none, w)

/-- Embedding of `clear_history` (lines 475-494): body `pass`. -/
def clear_history (w : World) : Option Bool × World := (none, w)

/-- Embedding of `display_translation` (lines 501-524): body `pass`. -/
def display_translation (w : World) (translation : TranslationResult) (show_details : Bool) :
    Option Unit × World := (none, w)

/-- Embedding of `display_languages` (lines 527-547): body `pass`. -/
def display_languages (w : World) (languages : List (String × String × String)) :
    Option Unit × World := (none, w)

/-- Embedding of `display_history` (lines 550-571): body `pass`. -/
def display_history (w : World) (history : List HistoryRecord) : Option Unit × World := (none, w)

/-- Embedding of `interactive_mode` (lines 578-607): body `pass`. -/
def interactive_mode (w : World) (config : Config) : Option Unit × World := (none, w)

/-- Embedding of `prompt_for_input` (lines 610-631): body `pass`. -/
def prompt_for_input (w : World) (prompt_message : String) : Option String × World := (none, w)

/-- Embedding of `parse_arguments` (lines 638-668): body `pass`; the
`argparse.Namespace` payload is modelled abstractly as `Unit` since the
stub never produces one. -/
def parse_arguments (w : World) : Option Unit × World := (none, w)

/-- Embedding of `main` (lines 671-701): body `pass`. -/
def main (w : World) : Option Unit × World := (none, w)

/-- Embedding of `validate_text_length` (lines 708-727): body `pass`. -/
def validate_text_length (w : World) (text : String) (max_length : Nat) :
    Option Bool × World := (none, w)

/-- Embedding of `chunk_text` (lines 730-751): body `pass`. -/
def chunk_text (w : World) (text : String) (chunk_size : Nat) :
    Option (List String) × World := (none, w)

/-- Embedding of `format_timestamp` (lines 754-774): body `pass`. -/
def format_timestamp (w : World) (timestamp : String) : Option String × World := (none, w)

/-- Embedding of `get_language_name` (lines 777-796): body `pass`. -/
def get_language_name (w : World) (lang_code : String) : Option String × World := (none, w)

/-- Embedding of `handle_error` (lines 823-844): body `pass`. -/
def handle_error (w : World) (error : ExcKind) (context : String) : Option Unit × World := (none, w)

end Src

/-- C10: `RateLimitError` and `AuthenticationError` are declared directly on
`TranslationError`, not on `APIError`; consequently an `except APIError:`
handler does not catch either of them. -/
theorem exception_hierarchy_claims :
    directBase .rateLimitError = some .translationError ∧
    directBase .authenticationError = some .translationError ∧
    isSubclassOf .rateLimitError .translationError = true ∧
    isSubclassOf .authenticationError .translationError = true ∧
    isSubclassOf .rateLimitError .apiError = false ∧
    isSubclassOf .authenticationError .apiError = false ∧
    catches .apiError .rateLimitError = false ∧
    catches .apiError .authenticationError = false := by
  decide

/-- C9: the `__main__` handler maps a `KeyboardInterrupt` propagating out of
`main()` to exit code 0 without calling `handle_error`, and maps every other
uncaught exception to a `handle_error` call and exit code 1. -/
theorem script_entry_behavior :
    (script_entry .keyboardInterrupt).exit_code = 0 ∧
    (script_entry .keyboardInterrupt).handle_error_called = false ∧
    ∀ e : ExcKind, (script_entry (.raised e)).exit_code = 1 ∧
      (script_entry (.raised e)).handle_error_called = true :=
  ⟨rfl, rfl, fun _ => ⟨rfl, rfl⟩⟩

/-- C1: every routine of `src/translator.py` is an unimplemented stub: for
every input each returns `None` and leaves the observable world unchanged. -/
theorem src_stubs_return_none (w : World) :
    (∀ t s l p, Src.translate_text w t s l p = (none, w)) ∧
    (∀ t c, Src.chunk_text w t c = (none, w)) ∧
    (∀ r, Src.save_to_history w r = (none, w)) ∧
    (∀ i o s l p, Src.translate_file w i o s l p = (none, w)) ∧
    Src.load_config w = (none, w) ∧
    (∀ c, Src.save_config w c = (none, w)) ∧
    (∀ p, Src.get_api_key w p = (none, w)) ∧
    Src.setup_first_run w = (none, w) ∧
    (∀ t s l p k, Src.call_translation_api w t s l p k = (none, w)) ∧
    (∀ r p, Src.parse_api_response w r p = (none, w)) ∧
    (∀ t p, Src.detect_language w t p = (none, w)) ∧
    (∀ c, Src.validate_language_code w c = (none, w)) ∧
    (∀ p, Src.get_supported_languages w p = (none, w)) ∧
    (∀ f e, Src.read_file_content w f e = (none, w)) ∧
    (∀ f c e, Src.write_file_content w f c e = (none, w)) ∧
    (∀ n f, Src.get_history w n f = (none, w)) ∧
    Src.clear_history w = (none, w) ∧
    (∀ t d, Src.display_translation w t d = (none, w)) ∧
    (∀ l, Src.display_languages w l = (none, w)) ∧
    (∀ h, Src.display_history w h = (none, w)) ∧
    (∀ c, Src.interactive_mode w c = (none, w)) ∧
    (∀ m, Src.prompt_for_input w m = (none, w)) ∧
    Src.parse_arguments w = (none, w) ∧
    Src.main w = (none, w) ∧
    (∀ t n, Src.validate_text_length w t n = (none, w)) ∧
    (∀ t, Src.format_timestamp w t = (none, w)) ∧
    (∀ c, Src.get_language_name w c = (none, w)) ∧
    (∀ e c, Src.handle_error w e c = (none, w)) :=
  ⟨fun _ _ _ _ => rfl, fun _ _ => rfl, fun _ => rfl, fun _ _ _ _ _ => rfl,
   rfl, fun _ => rfl, fun _ => rfl, rfl, fun _ _ _ _ _ => rfl,
   fun _ _ => rfl, fun _ _ => rfl, fun _ => rfl, fun _ => rfl,
   fun _ _ => rfl, fun _ _ _ => rfl, fun _ _ => rfl, rfl,
   fun _ _ => rfl, fun _ => rfl, fun _ => rfl, fun _ => rfl,
   fun _ => rfl, rfl, rfl, fun _ _ => rfl, fun _ => rfl,
   fun _ => rfl, fun _ _ => rfl⟩

namespace Spec

/-- Lower-casing of a language code, for the case-insensitive matching
required by spec section 4.1. -/
def lowerStr (s : String) : String := String.mk (s.data.map Char.toLower)

/-- Modelled from the spec: the Language Registry's static supported-language
catalog (spec sections 3 and 4.1; the implementation of
`get_supported_languages` is absent from the source).  ISO 639-1 codes plus
the explicitly enumerated region-suffixed variants. -/
def SUPPORTED_LANGUAGES : List String :=
  ["ar", "de", "en", "es", "fr", "hi", "it", "ja", "ko", "nl", "pl",
   "pt", "ru", "sv", "tr", "zh", "zh-CN", "zh-TW", "pt-BR"]

/-- Modelled from the spec: `validate(code)` of the Language Registry
(spec section 4.1; the implementation of `validate_language_code` is absent
from the source): case-insensitive match against the supported set, with
`auto` accepted. -/
def validate_language_code_pure (code : String) : Bool :=
  lowerStr code == "auto" ||
    SUPPORTED_LANGUAGES.any (fun c => lowerStr c == lowerStr code)

/-- State owned by the Language Registry: the optional cached
provider-queried catalog (spec section 4.1). -/
structure RegistryState where
  cache : Option (List String)
deriving DecidableEq

/-- Modelled from the spec: `validate_language_code` as an operation on the
Language Registry's state — a pure membership check that does not touch the
cache (spec sections 4.1 and 8, idempotence of `validate`). -/
def validate_language_code (st : RegistryState) (code : String) :
    Bool × RegistryState :=
  (validate_language_code_pure code, st)

/-- Modelled from the spec: `validate_text_length` (its implementation is
absent from the source; docstring lines 708-727): text must be non-empty
after stripping whitespace and no longer than `max_length`. -/
def validate_text_length (text : String) (max_length : Nat) : Bool :=
  (!text.data.all (fun c => c.isWhitespace)) && decide (text.length ≤ max_length)

/-- Sentence boundary characters per spec section 4.4: `.`, `!`, `?`. -/
def isSentenceBoundary (c : Char) : Bool :=
  c = '.' || c = '!' || c = '?'

/-- Word boundary per spec section 4.4, modelled as the space character. -/
def isWordBoundary (c : Char) : Bool := c = ' '

/-- Position of the last character satisfying `p`, if any (positions are
counted from the head of the list). -/
def lastPosWhere (p : Char → Bool) : List Char → Option Nat
  | [] => none
  | c :: cs =>
    match lastPosWhere p cs with
    | some i => some (i + 1)
    | none => if p c then some 0 else none

/-- Modelled from the spec: where a chunk of an over-long text ends
(spec section 4.4): just after the last sentence boundary at or before
`C`; failing that, just after the last word boundary in range; failing
that, a hard split at `C`.  The hard split is clamped to at least `1`
so that chunking always makes progress; for `C ≥ 1` this clamp is
inactive and the split is exactly the spec's. -/
def splitPos (s : List Char) (C : Nat) : Nat :=
  match lastPosWhere isSentenceBoundary (s.take C) with
  | some i => i + 1
  | none =>
    match lastPosWhere isWordBoundary (s.take C) with
    | some i => i + 1
    | none => max C 1

/-- Fuel-indexed worker for `chunk_text`; the fuel is an upper bound on
the number of chunks still to produce (each step consumes at least one
character). -/
def chunkAux : Nat → List Char → Nat → List (List Char)
  | 0, _, _ => []
  | _ + 1, [], _ => []
  | fuel + 1, c :: cs, C =>
    if (c :: cs).length ≤ C then [c :: cs]
    else (c :: cs).take (splitPos (c :: cs) C)
      :: chunkAux fuel ((c :: cs).drop (splitPos (c :: cs) C)) C

/-- Modelled from the spec: `chunk_text` (its implementation is absent from
the source; docstring lines 730-751 and spec section 4.4): empty input gives
zero chunks; text fitting in one chunk is returned whole; otherwise split at
`splitPos` and continue on the remainder. -/
def chunk_text (s : List Char) (C : Nat) : List (List Char) :=
  chunkAux s.length s C

/-- Concatenation of a list of chunks back into one text. -/
def concatAll : List (List Char) → List Char
  | [] => []
  | c :: cs => c ++ concatAll cs

/-- Modelled from the spec: `save_to_history` as the History Store's
bounded `append` (spec sections 4.5 and 8; the implementation is absent
from the source): append the record, then evict oldest records until the
size fits `max_history`. -/
def save_to_history (max_history : Nat) (h : List HistoryRecord)
    (r : HistoryRecord) : List HistoryRecord :=
  let h2 := h ++ [r]
  h2.drop (h2.length - max_history)

/-- Error kinds surfaced by the Provider Adapter boundary
(spec section 4.2). -/
inductive ProviderErr where
  | unauthorized
  | rateLimited
  | unreachable
  | malformedResponse
deriving DecidableEq

/-- A Provider Adapter (spec section 4.2): its name, its `translate`
operation (text, resolved source, target) and its `detectLanguage`
operation (code with confidence). -/
structure Provider where
  name : String
  translate : String → String → String → Except ProviderErr String
  detect : String → Except ProviderErr (String × Rat)

/-- Errors a Translation Pipeline call can surface
(spec section 7 taxonomy). -/
inductive PipelineErr where
  | validationError
  | unauthorized
  | rateLimited
  | unreachable
  | malformedResponse
deriving DecidableEq

/-- Provider-boundary errors propagate to the caller as distinct kinds
(spec section 7). -/
def liftErr : ProviderErr → PipelineErr
  | .unauthorized => .unauthorized
  | .rateLimited => .rateLimited
  | .unreachable => .unreachable
  | .malformedResponse => .malformedResponse

/-- Modelled from the spec: steps 1-5 of the Translation Pipeline
(spec section 4.3; the implementation of `translate_text` is absent from
the source): validate the text, validate the target code, resolve an
`auto` source via detection (falling back to `en` with confidence `0`
when detection fails), translate, and assemble the result with the
current timestamp `now`. -/
def translate_core (prov : Provider) (max_length : Nat)
    (now text source target : String) : Except PipelineErr TranslationResult :=
  if validate_text_length text max_length = true then
    if validate_language_code_pure target = true then
      let rs : String × Option Rat :=
        if source = "auto" then
          match prov.detect text with
          | .ok dc => (dc.1, some dc.2)
          | .error _ => ("en", some 0)
        else (source, none)
      match prov.translate text rs.1 target with
      | .ok out => .ok ⟨out, rs.1, target, rs.2, prov.name, now⟩
      | .error e => .error (liftErr e)
    else .error .validationError
  else .error .validationError

/-- Modelled from the spec: the full Translation Pipeline call including
step 6 (spec section 4.3): on success, if history is enabled the record is
appended to the History Store; `hist_write_ok` says whether that write
succeeds, and a failed write leaves the store unchanged while the
translation result is returned regardless. -/
def translate_text (prov : Provider) (max_length : Nat)
    (history_enabled hist_write_ok : Bool) (max_history : Nat)
    (hist : List HistoryRecord) (now text source target : String) :
    Except PipelineErr TranslationResult × List HistoryRecord :=
  match translate_core prov max_length now text source target with
  | .ok res =>
    (.ok res,
      if history_enabled && hist_write_ok then
        save_to_history max_history hist
          ⟨text, res.translated_text, res.resolved_source, target, now⟩
      else hist)
  | .error err => (.error err, hist)

/-- Sequential per-chunk translation (spec section 4.4): translate the
chunks in order with the chunk translator `tr` (chunk index, chunk text);
on the first failure report the index of the failing chunk, which equals
the number of chunks completed before it. -/
def runChunks (tr : Nat → List Char → Option (List Char)) :
    List (List Char) → Nat → Except Nat (List (List Char))
  | [], _ => .ok []
  | c :: rest, i =>
    match tr i c with
    | none => .error i
    | some t =>
      match runChunks tr rest (i + 1) with
      | .error j => .error j
      | .ok ts => .ok (t :: ts)

/-- Number of lines of a text. -/
def countLines (s : List Char) : Nat :=
  (s.filter (fun c => c = '\n')).length + 1

/-- Modelled from the spec: `translate_file` (its implementation is absent
from the source; docstring lines 325-360 and spec section 4.4): chunk the
content, translate the chunks sequentially, and return the summary paired
with the content written to the output file — `none` when nothing is
written.  On a mid-file failure the partial output is discarded (no file is
written), `success` is `false`, and `chunks_completed` carries the count of
chunks completed before the failure. -/
def translate_file (tr : Nat → List Char → Option (List Char))
    (content : List Char) (C : Nat) : FileSummary × Option (List Char) :=
  match runChunks tr (chunk_text content C) 0 with
  | .error i => (⟨content.length, countLines content, false, i⟩, none)
  | .ok ts =>
    (⟨content.length, countLines content, true, (chunk_text content C).length⟩,
      some (concatAll ts))

end Spec

theorem lastPosWhere_lt_length (p : Char → Bool) :
    ∀ (l : List Char) (i : Nat), Spec.lastPosWhere p l = some i → i < l.length := by
  intro l
  induction l with
  | nil => intro i h; simp [Spec.lastPosWhere] at h
  | cons c cs ih =>
    intro i h
    simp only [Spec.lastPosWhere] at h
    split at h
    · rename_i j hj
      injection h with h
      subst h
      have := ih j hj
      simp only [List.length_cons]
      omega
    · split at h
      · injection h with h
        subst h
        simp only [List.length_cons]
        omega
      · exact absurd h (by simp)

theorem splitPos_pos (s : List Char) (C : Nat) : 1 ≤ Spec.splitPos s C := by
  unfold Spec.splitPos
  split
  · omega
  · split
    · omega
    · omega

theorem splitPos_le (s : List Char) (C : Nat) (hC : 1 ≤ C) : Spec.splitPos s C ≤ C := by
  unfold Spec.splitPos
  split
  · rename_i i hi
    have h1 := lastPosWhere_lt_length _ _ _ hi
    rw [List.length_take] at h1
    omega
  · split
    · rename_i i hi
      have h1 := lastPosWhere_lt_length _ _ _ hi
      rw [List.length_take] at h1
      omega
    · omega

theorem chunkAux_concat :
    ∀ (fuel : Nat) (s : List Char) (C : Nat), s.length ≤ fuel →
      Spec.concatAll (Spec.chunkAux fuel s C) = s := by
  intro fuel
  induction fuel with
  | zero =>
    intro s C h
    have hs : s = [] := List.eq_nil_of_length_eq_zero (Nat.le_zero.mp h)
    subst hs
    rfl
  | succ n ih =>
    intro s C h
    cases s with
    | nil => rfl
    | cons c cs =>
      simp only [Spec.chunkAux]
      split
      · simp [Spec.concatAll]
      · rename_i hlen
        rw [Spec.concatAll, ih]
        · exact List.take_append_drop _ _
        · rw [List.length_drop]
          simp only [List.length_cons]
          have hp := splitPos_pos (c :: cs) C
          simp only [List.length_cons] at h
          omega

theorem chunkAux_length_le :
    ∀ (fuel : Nat) (s : List Char) (C : Nat), 1 ≤ C →
      ∀ ch ∈ Spec.chunkAux fuel s C, ch.length ≤ C := by
  intro fuel
  induction fuel with
  | zero => intro s C hC ch hch; simp [Spec.chunkAux] at hch
  | succ n ih =>
    intro s C hC ch hch
    cases s with
    | nil => simp [Spec.chunkAux] at hch
    | cons c cs =>
      simp only [Spec.chunkAux] at hch
      split at hch
      · rename_i hlen
        simp only [List.mem_singleton] at hch
        subst hch
        exact hlen
      · rcases List.mem_cons.mp hch with h1 | h2
        · subst h1
          have hs := splitPos_le (c :: cs) C hC
          rw [List.length_take]
          omega
        · exact ih _ C hC ch h2

theorem runChunks_error (tr : Nat → List Char → Option (List Char)) :
    ∀ (chunks : List (List Char)) (i k : Nat),
      k < chunks.length →
      (∀ j, j < k → (tr (i + j) (chunks.getD j [])).isSome = true) →
      tr (i + k) (chunks.getD k []) = none →
      Spec.runChunks tr chunks i = .error (i + k) := by
  intro chunks
  induction chunks with
  | nil => intro i k hk _ _; simp at hk
  | cons c rest ih =>
    intro i k hk hbef hfail
    cases k with
    | zero =>
      simp only [List.getD_cons_zero, Nat.add_zero] at hfail
      simp [Spec.runChunks, hfail]
    | succ k2 =>
      have h0 : (tr (i + 0) ((c :: rest).getD 0 [])).isSome = true :=
        hbef 0 (Nat.succ_pos _)
      simp only [List.getD_cons_zero, Nat.add_zero] at h0
      obtain ⟨t, ht⟩ := Option.isSome_iff_exists.mp h0
      have hrec : Spec.runChunks tr rest (i + 1) = .error (i + 1 + k2) := by
        apply ih
        · simp only [List.length_cons] at hk; omega
        · intro j hj
          have hb := hbef (j + 1) (by omega)
          rw [List.getD_cons_succ] at hb
          have he : i + (j + 1) = i + 1 + j := by omega
          rw [he] at hb
          exact hb
        · have hf := hfail
          rw [List.getD_cons_succ] at hf
          have he : i + (k2 + 1) = i + 1 + k2 := by omega
          rw [he] at hf
          exact hf
      have harith : i + 1 + k2 = i + (k2 + 1) := by omega
      simp only [Spec.runChunks, ht, hrec, harith]

theorem save_to_history_length (m : Nat) (h : List HistoryRecord) (r : HistoryRecord) :
    (Spec.save_to_history m h r).length = min (h.length + 1) m := by
  simp [Spec.save_to_history, List.length_drop, List.length_append]
  omega

/-- C2 (amended): for every text and every chunk size `C ≥ 1`, `chunk_text`
returns an ordered list of chunks whose concatenation equals the original
text, with each chunk of length at most `C`. -/
theorem chunk_text_spec (s : List Char) (C : Nat) (hC : 1 ≤ C) :
    Spec.concatAll (Spec.chunk_text s C) = s ∧
    ∀ ch ∈ Spec.chunk_text s C, ch.length ≤ C :=
  ⟨chunkAux_concat s.length s C (Nat.le_refl _),
   chunkAux_length_le s.length s C hC⟩

/-- C2 counterexample: at chunk size `C = 0` and text `"ab"` the claim as
stated fails — no nonempty text can be covered by chunks of length at
most `0` whose concatenation reassembles it, and indeed `chunk_text`
produces chunks of positive length there. -/
theorem chunk_text_claim_cex :
    ¬ (Spec.concatAll (Spec.chunk_text ['a', 'b'] 0) = ['a', 'b'] ∧
       ∀ ch ∈ Spec.chunk_text ['a', 'b'] 0, ch.length ≤ 0) := by
  decide

/-- C2 witness: the amended theorem evaluated at text `"hi. yo"` and
chunk size `4`. -/
theorem chunk_text_spec_witness :
    1 ≤ 4 ∧
    (Spec.concatAll (Spec.chunk_text ['h', 'i', '.', ' ', 'y', 'o'] 4)
        = ['h', 'i', '.', ' ', 'y', 'o'] ∧
     ∀ ch ∈ Spec.chunk_text ['h', 'i', '.', ' ', 'y', 'o'] 4, ch.length ≤ 4) :=
  ⟨by decide, chunk_text_spec ['h', 'i', '.', ' ', 'y', 'o'] 4 (by decide)⟩

/-- C3: after any sequence of `append` calls on the History Store starting
from empty — including every intermediate point of the sequence — the number
of stored records never exceeds `max_history`; moreover each append keeps a
suffix of the appended sequence (the oldest records are the ones evicted) of
size `min (previous + 1) max_history`. -/
theorem save_to_history_bounded (m : Nat) (rs : List HistoryRecord) :
    (∀ k, ((rs.take k).foldl (Spec.save_to_history m) []).length ≤ m) ∧
    ∀ (h : List HistoryRecord) (r : HistoryRecord),
      (Spec.save_to_history m h r).IsSuffix (h ++ [r]) ∧
      (Spec.save_to_history m h r).length = min (h.length + 1) m := by
  constructor
  · intro k
    have key : ∀ (l acc : List HistoryRecord), acc.length ≤ m →
        (l.foldl (Spec.save_to_history m) acc).length ≤ m := by
      intro l
      induction l with
      | nil => intro acc hacc; simpa using hacc
      | cons x xs ih =>
        intro acc hacc
        simp only [List.foldl_cons]
        apply ih
        rw [save_to_history_length]
        omega
    exact key (rs.take k) [] (by simp)
  · intro h r
    exact ⟨List.drop_suffix _ _, save_to_history_length m h r⟩

/-- C4: if the chunk translator succeeds on the first `k` chunks and fails
on the chunk at 0-based index `k` (so `k` chunks completed), then
`translate_file` writes no output file, reports `success = false`, and
surfaces `chunks_completed = k` to the caller. -/
theorem translate_file_abort
    (tr : Nat → List Char → Option (List Char)) (content : List Char) (C k : Nat)
    (hk : k < (Spec.chunk_text content C).length)
    (hbef : ∀ j, j < k →
      (tr j ((Spec.chunk_text content C).getD j [])).isSome = true)
    (hfail : tr k ((Spec.chunk_text content C).getD k []) = none) :
    (Spec.translate_file tr content C).2 = none ∧
    (Spec.translate_file tr content C).1.success = false ∧
    (Spec.translate_file tr content C).1.chunks_completed = k := by
  have h := runChunks_error tr (Spec.chunk_text content C) 0 k hk
    (fun j hj => by simpa using hbef j hj) (by simpa using hfail)
  rw [Nat.zero_add] at h
  simp [Spec.translate_file, h]

/-- C4 witness: a three-chunk input whose translator fails on the second
chunk (index `1`): no output is written, `success = false`, and one
completed chunk is reported. -/
theorem translate_file_abort_witness :
    (Spec.translate_file (fun j _ => if j = 1 then none else some ['x'])
      ['a', '.', 'b', '.', 'c'] 2).2 = none ∧
    (Spec.translate_file (fun j _ => if j = 1 then none else some ['x'])
      ['a', '.', 'b', '.', 'c'] 2).1.success = false ∧
    (Spec.translate_file (fun j _ => if j = 1 then none else some ['x'])
      ['a', '.', 'b', '.', 'c'] 2).1.chunks_completed = 1 :=
  translate_file_abort (fun j _ => if j = 1 then none else some ['x'])
    ['a', '.', 'b', '.', 'c'] 2 1 (by decide) (by decide) (by decide)

/-- C5: with source `auto`, when detection fails the pipeline does not
abort: it resolves the source to `en` with confidence `0.0` and still
returns a translation result built from the provider's translation. -/
theorem translate_text_detect_fallback
    (prov : Spec.Provider) (maxLen maxH : Nat) (histEnabled histOk : Bool)
    (hist : List HistoryRecord) (now text target out : String) (e : Spec.ProviderErr)
    (hv : Spec.validate_text_length text maxLen = true)
    (ht : Spec.validate_language_code_pure target = true)
    (hd : prov.detect text = .error e)
    (htr : prov.translate text "en" target = .ok out) :
    (Spec.translate_text prov maxLen histEnabled histOk maxH hist
        now text "auto" target).1
      = .ok ⟨out, "en", target, some 0, prov.name, now⟩ := by
  simp [Spec.translate_text, Spec.translate_core, hv, ht, hd, htr]

/-- C5 witness: a concrete provider whose detection always fails and whose
translation returns `"hola"`, applied to text `"hello"` and target `"es"`. -/
theorem translate_text_detect_fallback_witness :
    (Spec.translate_text
        ⟨"google", fun _ _ _ => .ok "hola", fun _ => .error .unreachable⟩
        5000 true true 10 [] "2026-01-01T00:00:00" "hello" "auto" "es").1
      = .ok ⟨"hola", "en", "es", some 0, "google", "2026-01-01T00:00:00"⟩ :=
  translate_text_detect_fallback
    ⟨"google", fun _ _ _ => .ok "hola", fun _ => .error .unreachable⟩
    5000 10 true true [] "2026-01-01T00:00:00" "hello" "es" "hola" .unreachable
    (by decide) (by decide) rfl rfl

/-- C6: with history enabled, the translation result returned to the
caller is the same whether or not the history write succeeds — a history
write failure never fails the translation call. -/
theorem translate_text_history_write_independent
    (prov : Spec.Provider) (maxLen maxH : Nat) (ok : Bool)
    (hist : List HistoryRecord) (now text source target : String) :
    (Spec.translate_text prov maxLen true ok maxH hist now text source target).1
      = (Spec.translate_text prov maxLen true true maxH hist now text source target).1 := by
  cases h : Spec.translate_core prov maxLen now text source target <;>
    simp [Spec.translate_text, h]

/-- C7: on empty, whitespace-only or oversized text, or an invalid target
language code, the pipeline rejects with a validation error, and the whole
call is independent of the provider — no provider (network) interaction
takes place. -/
theorem translate_text_fail_fast
    (prov : Spec.Provider) (maxLen maxH : Nat) (histEnabled histOk : Bool)
    (hist : List HistoryRecord) (now text source target : String)
    (h : Spec.validate_text_length text maxLen = false ∨
         Spec.validate_language_code_pure target = false) :
    (Spec.translate_text prov maxLen histEnabled histOk maxH hist
        now text source target).1 = .error .validationError ∧
    ∀ prov2 : Spec.Provider,
      Spec.translate_text prov2 maxLen histEnabled histOk maxH hist
          now text source target
        = Spec.translate_text prov maxLen histEnabled histOk maxH hist
          now text source target := by
  have core : ∀ pv : Spec.Provider,
      Spec.translate_core pv maxLen now text source target
        = .error .validationError := by
    intro pv
    rcases h with h1 | h2
    · simp [Spec.translate_core, h1]
    · by_cases hv : Spec.validate_text_length text maxLen = true
      · simp [Spec.translate_core, hv, h2]
      · simp [Spec.translate_core, hv]
  constructor
  · simp [Spec.translate_text, core prov]
  · intro prov2
    simp [Spec.translate_text, core prov, core prov2]

/-- C7 witness: empty text is rejected with a validation error, and two
different providers produce identical calls. -/
theorem translate_text_fail_fast_witness :
    (Spec.translate_text
        ⟨"google", fun _ _ _ => .ok "x", fun _ => .ok ("en", 1)⟩
        5000 true true 10 [] "t0" "" "auto" "es").1 = .error .validationError ∧
    Spec.translate_text
        ⟨"deepl", fun _ _ _ => .error .unreachable, fun _ => .error .unreachable⟩
        5000 true true 10 [] "t0" "" "auto" "es"
      = Spec.translate_text
        ⟨"google", fun _ _ _ => .ok "x", fun _ => .ok ("en", 1)⟩
        5000 true true 10 [] "t0" "" "auto" "es" :=
  ⟨(translate_text_fail_fast
      ⟨"google", fun _ _ _ => .ok "x", fun _ => .ok ("en", 1)⟩
      5000 10 true true [] "t0" "" "auto" "es" (Or.inl (by decide))).1,
   (translate_text_fail_fast
      ⟨"google", fun _ _ _ => .ok "x", fun _ => .ok ("en", 1)⟩
      5000 10 true true [] "t0" "" "auto" "es" (Or.inl (by decide))).2
     ⟨"deepl", fun _ _ _ => .error .unreachable, fun _ => .error .unreachable⟩⟩

/-- C8: validating the same language code twice returns the same result
both times, and the call leaves the Language Registry state untouched
(no side effects). -/
theorem validate_language_code_idempotent (st : Spec.RegistryState) (code : String) :
    (Spec.validate_language_code st code).2 = st ∧
    (Spec.validate_language_code (Spec.validate_language_code st code).2 code).1
      = (Spec.validate_language_code st code).1 :=
  ⟨rfl, rfl⟩

/-- C7 counterexample: an invalid non-`auto` source code is an invalid
language code, yet the pipeline does not reject it: with valid text and
valid target but source `"xx"` — which the registry itself rejects — the
call returns the provider's translation rather than a validation error,
and the outcome depends on the provider, so a provider interaction takes
place. -/
theorem translate_text_fail_fast_cex :
    Spec.validate_language_code_pure "xx" = false ∧
    (Spec.translate_text
        ⟨"google", fun _ _ _ => .ok "hola", fun _ => .ok ("en", 1)⟩
        5000 true true 10 [] "t0" "hello" "xx" "es").1
      = .ok ⟨"hola", "xx", "es", none, "google", "t0"⟩ ∧
    (Spec.translate_text
        ⟨"deepl", fun _ _ _ => .error .unreachable, fun _ => .ok ("en", 1)⟩
        5000 true true 10 [] "t0" "hello" "xx" "es").1
      = .error .unreachable :=
  ⟨by decide, rfl, rfl⟩
